import Mathlib

/-!
Shallow embedding of the post-loading module of the blog repository
(`getSlugFromFilename`, `getFilenameFromSlug`, `getFriendlyDate`,
`markdownToHtml`, `getPostFromSlug`, `getAllPosts`, `getAllSlugs`),
together with proofs of the specification claims about it.

The source is TypeScript running on Node; we model:
 - the content directory as an association list of `(filename, raw contents)`
   pairs in directory-enumeration order (`fs.readdirSync` returns the
   filenames in that order, `fs.readFileSync` looks a path up and throws
   `ENOENT` when no file is there);
 - JavaScript exceptions as `Except JsError`;
 - the `Date` values produced by the YAML front-matter parser for a
   `YYYY-MM-DD` scalar as a year/month/day triple; `>` on two such `Date`s
   compares epoch milliseconds, which for calendar-valid dates is exactly
   the lexicographic comparison of the triples;
 - `Array.prototype.sort` (ES2019+: a stable sort driven by the comparator)
   as the insertion sort that places each element after every
   already-placed element that the comparator does not order strictly
   after it — for the comparator in the source this agrees with the
   engine's stable TimSort;
 - `gray-matter` at the line level: an opening `---` line, YAML key/value
   lines, a closing `---` line, and the body (with its leading newline
   kept, as `gray-matter` does).

String processing is implemented by structural recursion over `String.data`
so that every definition evaluates inside the kernel.
-/

/-- Error values thrown by the JavaScript runtime while loading a post:
`fileNotFound` models the `ENOENT` error of `fs.readFileSync`, and
`typeError` models the `TypeError` raised when a method such as
`toISOString` is invoked on `undefined`. -/
inductive JsError where
  | fileNotFound (path : String)
  | typeError (msg : String)
  deriving DecidableEq, Repr

/-- Calendar date as parsed by the YAML front-matter parser from a
`YYYY-MM-DD` scalar (a JavaScript `Date` at UTC midnight of that day). -/
structure YamlDate where
  year : Nat
  month : Nat
  day : Nat
  deriving DecidableEq, Repr

/-- Comparison `a > b` on two front-matter `Date` values.  JavaScript
compares the epoch milliseconds; for calendar-valid dates this is the
lexicographic order on (year, month, day). -/
def dateGt (a b : YamlDate) : Bool :=
  decide (b.year < a.year) ||
    (decide (a.year = b.year) &&
      (decide (b.month < a.month) ||
        (decide (a.month = b.month) && decide (b.day < a.day))))

/-- Non-strict comparison `a >= b` on front-matter `Date` values, i.e. the
negation of `b > a`. -/
def dateGe (a b : YamlDate) : Bool :=
  !dateGt b a

/-- Front matter extracted by `matter` from a post file: the `title` and
`date` keys, each absent (`none`, i.e. `undefined` in JavaScript) when the
metadata block has no such line or, for `date`, when the value is not a
`YYYY-MM-DD` date scalar. -/
structure FrontMatter where
  title : Option String
  date : Option YamlDate
  deriving DecidableEq, Repr

/-- The record assembled by `getPostFromSlug` (the `PostType` interface).
`title` is `Option String` because the source copies `data.title` without
checking it, so the field is `undefined` when the metadata block has no
title line. -/
structure Post where
  title : Option String
  date : YamlDate
  slug : String
  friendlyDate : String
  content : String
  contentHtml : String
  deriving DecidableEq, Repr

/-- A content directory: filenames with their raw file contents, listed in
directory-enumeration order. -/
def Dir := List (String × String)

/-- Model of `fs.readdirSync(postsDirectory)`: the filenames in
directory-enumeration order. -/
def readdirSync (d : Dir) : List String :=
  List.map Prod.fst d

/-- Path of the posts directory (`join(process.cwd(), '_posts')`; the
working-directory prefix is fixed for a build, so we keep the tail). -/
def postsDirectory : String :=
  "_posts"

/-- Model of `path.join` for the single level of nesting the source uses. -/
def pathJoin (dir name : String) : String :=
  dir ++ "/" ++ name

/-- Model of `fs.readFileSync(path, 'utf8')` against a content directory:
`some` the contents when a directory entry's path matches, `none` when the
read would throw `ENOENT`. -/
def readFileSync (d : Dir) (path : String) : Option String :=
  (List.find? (fun e => pathJoin postsDirectory e.1 == path) d).map Prod.snd

/-! ### Character-level string helpers (structural, kernel-evaluable) -/

/-- Whitespace characters stripped by YAML scalar trimming. -/
def isWsChar (c : Char) : Bool :=
  c = ' ' || c = '\t' || c = '\r'

/-- Trim leading and trailing whitespace from a character list. -/
def trimChars (cs : List Char) : List Char :=
  ((cs.dropWhile isWsChar).reverse.dropWhile isWsChar).reverse

/-- Trim leading and trailing whitespace from a string. -/
def trimStr (s : String) : String :=
  String.mk (trimChars s.data)

/-- Split a character list at newline characters, keeping empty pieces,
like `String.prototype.split('\n')`. -/
def splitLinesAux : List Char → List Char → List String
  | [], acc => [String.mk acc.reverse]
  | c :: cs, acc =>
    if c = '\n' then String.mk acc.reverse :: splitLinesAux cs []
    else splitLinesAux cs (c :: acc)

/-- Split a string into its lines at `'\n'`, keeping empty lines. -/
def splitLines (s : String) : List String :=
  splitLinesAux s.data []

/-- Join lines back with `'\n'` separators. -/
def joinLines : List String → String
  | [] => ""
  | [l] => l
  | l :: ls => l ++ "\n" ++ joinLines ls

/-- Split a character list at `'-'` characters, keeping empty pieces. -/
def splitDashAux : List Char → List Char → List (List Char)
  | [], acc => [acc.reverse]
  | c :: cs, acc =>
    if c = '-' then acc.reverse :: splitDashAux cs []
    else splitDashAux cs (c :: acc)

/-- Parse a non-empty all-digit character list as a natural number. -/
def parseNatDigitsAux : List Char → Nat → Option Nat
  | [], acc => some acc
  | c :: cs, acc =>
    if c.isDigit then parseNatDigitsAux cs (acc * 10 + (c.toNat - 48))
    else none

/-- Parse a non-empty all-digit character list as a natural number;
`none` on the empty list or any non-digit. -/
def parseNatDigits : List Char → Option Nat
  | [] => none
  | c :: cs => parseNatDigitsAux (c :: cs) 0

/-- Parse a YAML date scalar `YYYY-MM-DD` (the timestamp shape the YAML
parser recognises as a date: four digits, dash, two digits, dash, two
digits).  Any other value yields `none` — in the source such a value
reaches `getFriendlyDate` without a `toISOString` method and produces the
same `TypeError` as an absent date. -/
def parseYamlDate (s : String) : Option YamlDate :=
  match splitDashAux s.data [] with
  | [y, m, d] =>
    if y.length = 4 && m.length = 2 && d.length = 2 then
      match parseNatDigits y, parseNatDigits m, parseNatDigits d with
      | some yn, some mn, some dn => some ⟨yn, mn, dn⟩
      | _, _, _ => none
    else none
  | _ => none

/-- Decimal digits of a natural number, most significant first (with a
fuel argument to keep the recursion structural). -/
def natDigitsAux : Nat → Nat → List Char
  | 0, _ => []
  | fuel + 1, n =>
    if n < 10 then [Char.ofNat (48 + n)]
    else natDigitsAux fuel (n / 10) ++ [Char.ofNat (48 + n % 10)]

/-- Decimal rendering of a natural number. -/
def natToStr (n : Nat) : String :=
  String.mk (natDigitsAux (n + 1) n)

/-- Decimal rendering of a natural number, left-padded with zeros to `w`
characters, as `toISOString` renders year, month and day fields. -/
def padNat (w n : Nat) : String :=
  String.mk (List.replicate (w - (natDigitsAux (n + 1) n).length) '0'
    ++ natDigitsAux (n + 1) n)

/-! ### The operations of the post-loading module -/

/-- Model of `getFriendlyDate`: `date.toISOString().substring(0, 10)`, the
`YYYY-MM-DD` rendering of the date. -/
def getFriendlyDate (date : YamlDate) : String :=
  padNat 4 date.year ++ "-" ++ padNat 2 date.month ++ "-" ++ padNat 2 date.day

/-- Model of `getSlugFromFilename`:
`filename.replace(/\.md$/, '')` removes a single trailing `.md` when
present and leaves the filename unchanged otherwise. -/
def getSlugFromFilename (filename : String) : String :=
  if List.isSuffixOf ['.', 'm', 'd'] filename.data then
    String.mk (filename.data.take (filename.data.length - 3))
  else filename

/-- Model of `getFilenameFromSlug`: append the fixed `.md` extension. -/
def getFilenameFromSlug (slug : String) : String :=
  slug ++ ".md"

/-- Model of `getFilepathFromSlug`: the slug's filename inside the posts
directory. -/
def getFilepathFromSlug (slug : String) : String :=
  pathJoin postsDirectory (getFilenameFromSlug slug)

/-- Modelled from the spec: the `remark().use(html)` markdown renderer is
external library code (the `remark` and `remark-html` packages), not part
of this repository; the spec requires only that it is a pure,
deterministic function from markdown source text to HTML text with no
dependence on ambient state.  We model it as a fixed paragraph rendering
of the trimmed source. -/
def remarkHtml (markdown : String) : String :=
  "<p>" ++ trimStr markdown ++ "</p>\n"

/-- Model of `markdownToHtml`: process the markdown with the remark
pipeline and render the result to a string. -/
def markdownToHtml (markdown : String) : String :=
  remarkHtml markdown

/-- Ambient state a JavaScript computation could in principle depend on:
the file system, the environment and a clock.  `markdownToHtml` reads none
of it. -/
structure World where
  fs : Dir
  envVars : List (String × String)
  clockMs : Nat

/-- Model of an invocation of `markdownToHtml` in an ambient world: the
source builds the remark processor from the markdown argument alone, so
the result is `remarkHtml markdown` and the world is untouched. -/
def markdownToHtmlInWorld (w : World) (markdown : String) : String × World :=
  (markdownToHtml markdown, w)

/-- Parse the YAML lines of the metadata block into the `title` and `date`
fields, later lines overwriting earlier ones. -/
def parseMetaLines (lines : List String) : FrontMatter :=
  lines.foldl
    (fun fm line =>
      if List.isPrefixOf ['t', 'i', 't', 'l', 'e', ':'] line.data then
        { fm with title := some (trimStr (String.mk (line.data.drop 6))) }
      else if List.isPrefixOf ['d', 'a', 't', 'e', ':'] line.data then
        { fm with date := parseYamlDate (trimStr (String.mk (line.data.drop 5))) }
      else fm)
    ⟨none, none⟩

/-- Model of `matter(fileContents)` from the `gray-matter` package, at the
line level: if the file starts with a `---` line, the lines up to the next
`---` line form the metadata block and the body is everything after that
closing line (keeping the newline that followed the closing delimiter, as
`gray-matter` does); with no closing delimiter the whole remainder is
metadata and the body is empty; a file not starting with `---` has empty
metadata and is all body. -/
def matter (s : String) : FrontMatter × String :=
  match splitLines s with
  | [] => (⟨none, none⟩, s)
  | first :: rest =>
    if first = "---" then
      let metaLines := rest.takeWhile (fun l => l ≠ "---")
      match rest.dropWhile (fun l => l ≠ "---") with
      | [] => (parseMetaLines metaLines, "")
      | _ :: after =>
        (parseMetaLines metaLines,
          match after with
          | [] => ""
          | _ :: _ => "\n" ++ joinLines after)
    else (⟨none, none⟩, s)

/-- Model of `getPostFromSlug`: read the slug's file (throwing `ENOENT`
when it is missing), split metadata from body with `matter`, and assemble
the record.  Building the object literal calls
`getFriendlyDate(data.date)`, which throws a `TypeError` when `data.date`
is `undefined` (or not a `Date`); `data.title` is copied unchecked. -/
def getPostFromSlug (d : Dir) (slug : String) : Except JsError Post :=
  match readFileSync d (getFilepathFromSlug slug) with
  | none => .error (.fileNotFound (getFilepathFromSlug slug))
  | some fileContents =>
    let parsed := matter fileContents
    match parsed.1.date with
    | none => .error (.typeError "date.toISOString is not a function")
    | some date =>
      .ok { title := parsed.1.title
            date := date
            slug := slug
            friendlyDate := getFriendlyDate date
            content := parsed.2
            contentHtml := markdownToHtml parsed.2 }

/-- Model of `getPostFromFilename`: fetch the post of the filename's slug. -/
def getPostFromFilename (d : Dir) (filename : String) : Except JsError Post :=
  getPostFromSlug d (getSlugFromFilename filename)

/-- Insert a newly fetched post into an already sorted list the way the
stable `Array.prototype.sort` places it under the comparator
`(post1, post2) => (post1.date > post2.date ? -1 : 1)`: the new element
goes after every element the comparator does not order it strictly before,
i.e. after every earlier element whose date it does not strictly exceed. -/
def sortInsertPost : List Post → Post → List Post
  | [], x => [x]
  | y :: ys, x =>
    if dateGt x.date y.date then x :: y :: ys
    else y :: sortInsertPost ys x

/-- Model of `posts.sort((post1, post2) => (post1.date > post2.date ? -1 : 1))`:
the stable descending-by-date sort of the fetched posts. -/
def jsSortPosts (posts : List Post) : List Post :=
  posts.foldl sortInsertPost []

/-- The sequential `for (const filename of filenames)` loop of
`getAllPosts`: fetch each post in enumeration order, aborting with the
first error. -/
def getAllPostsLoop (d : Dir) : List String → Except JsError (List Post)
  | [] => .ok []
  | fn :: fns =>
    match getPostFromFilename d fn with
    | .error e => .error e
    | .ok p =>
      match getAllPostsLoop d fns with
      | .error e => .error e
      | .ok ps => .ok (p :: ps)

/-- Model of `getAllPosts`: enumerate the directory, fetch every post in
order (any failure aborts the whole call), then sort by date descending. -/
def getAllPosts (d : Dir) : Except JsError (List Post) :=
  match getAllPostsLoop d (readdirSync d) with
  | .error e => .error e
  | .ok posts => .ok (jsSortPosts posts)

/-- Model of `getAllSlugs`: map every directory entry to its slug. -/
def getAllSlugs (d : Dir) : List String :=
  (readdirSync d).map getSlugFromFilename

/-! ### Lemmas about date comparison -/

/-- Unfolding of `dateGt` to the lexicographic proposition. -/
theorem dateGt_iff (a b : YamlDate) :
    dateGt a b = true ↔
      (b.year < a.year ∨ (a.year = b.year ∧
        (b.month < a.month ∨ (a.month = b.month ∧ b.day < a.day)))) := by
  simp [dateGt]

/-- The strict comparison is asymmetric. -/
theorem dateGt_asymm {a b : YamlDate} (h : dateGt a b = true) :
    dateGt b a = false := by
  rw [dateGt_iff] at h
  rw [Bool.eq_false_iff, Ne, dateGt_iff]
  omega

/-- The non-strict comparison is total. -/
theorem dateGe_total (a b : YamlDate) : dateGe a b = true ∨ dateGe b a = true := by
  cases h : dateGt b a
  · left
    simp only [dateGe, h, Bool.not_false]
  · right
    simp only [dateGe, dateGt_asymm h, Bool.not_false]

/-- A strict comparison yields the non-strict one. -/
theorem dateGe_of_dateGt {a b : YamlDate} (h : dateGt a b = true) :
    dateGe a b = true := by
  simp only [dateGe, dateGt_asymm h, Bool.not_false]

/-- A failed strict comparison yields the reversed non-strict one. -/
theorem dateGe_of_not_dateGt {a b : YamlDate} (h : dateGt a b = false) :
    dateGe b a = true := by
  simp only [dateGe, h, Bool.not_false]

/-- Strict-after-nonstrict transitivity. -/
theorem dateGt_of_dateGt_of_dateGe {a b c : YamlDate}
    (h₁ : dateGt a b = true) (h₂ : dateGe b c = true) : dateGt a c = true := by
  simp only [dateGe, Bool.not_eq_true'] at h₂
  rw [Bool.eq_false_iff, Ne, dateGt_iff] at h₂
  rw [dateGt_iff] at h₁ ⊢
  omega

/-- Strictly greater dates are distinct. -/
theorem ne_of_dateGt {a b : YamlDate} (h : dateGt a b = true) : a ≠ b := by
  rw [dateGt_iff] at h
  intro hab
  subst hab
  omega

/-! ### Lemmas about the stable sort -/

/-- The relation the sorted output satisfies: the earlier post's date is
at least the later post's date. -/
def postGe (p q : Post) : Prop :=
  dateGe p.date q.date = true

instance : DecidablePred fun pq : Post × Post => postGe pq.1 pq.2 :=
  fun _ => by unfold postGe; infer_instance

/-- Membership in an insertion. -/
theorem mem_sortInsertPost {l : List Post} {x z : Post} :
    z ∈ sortInsertPost l x ↔ z = x ∨ z ∈ l := by
  induction l with
  | nil => simp [sortInsertPost]
  | cons y ys ih =>
    by_cases h : dateGt x.date y.date = true
    · rw [sortInsertPost, if_pos h]
      simp only [List.mem_cons]
    · rw [Bool.not_eq_true] at h
      rw [sortInsertPost, if_neg (by simp [h])]
      simp only [List.mem_cons, ih]
      tauto

/-- Inserting into a sorted list keeps it sorted. -/
theorem pairwise_sortInsertPost {l : List Post} (x : Post)
    (hl : l.Pairwise postGe) : (sortInsertPost l x).Pairwise postGe := by
  induction l with
  | nil => simp [sortInsertPost, List.pairwise_singleton]
  | cons y ys ih =>
    rw [List.pairwise_cons] at hl
    by_cases h : dateGt x.date y.date = true
    · rw [sortInsertPost, if_pos h]
      rw [List.pairwise_cons]
      constructor
      · intro z hz
        rcases List.mem_cons.mp hz with hz | hz
        · subst hz
          exact dateGe_of_dateGt h
        · exact dateGe_of_dateGt
            (dateGt_of_dateGt_of_dateGe h (hl.1 z hz))
      · rw [List.pairwise_cons]
        exact hl
    · rw [Bool.not_eq_true] at h
      rw [sortInsertPost, if_neg (by simp [h])]
      rw [List.pairwise_cons]
      constructor
      · intro z hz
        rcases mem_sortInsertPost.mp hz with hz | hz
        · subst hz
          exact dateGe_of_not_dateGt h
        · exact hl.1 z hz
      · exact ih hl.2

/-- The fold underlying `jsSortPosts` keeps the accumulator sorted. -/
theorem pairwise_foldl_sortInsertPost (l : List Post) :
    ∀ acc : List Post, acc.Pairwise postGe →
      (l.foldl sortInsertPost acc).Pairwise postGe := by
  induction l with
  | nil => intro acc hacc; simpa using hacc
  | cons x xs ih =>
    intro acc hacc
    rw [List.foldl_cons]
    exact ih _ (pairwise_sortInsertPost x hacc)

/-- The output of the sort of `getAllPosts` is sorted: every earlier
post's date is at least every later post's date. -/
theorem pairwise_jsSortPosts (l : List Post) :
    (jsSortPosts l).Pairwise postGe :=
  pairwise_foldl_sortInsertPost l [] List.Pairwise.nil

/-- In a sorted list whose head the new element strictly exceeds, the new
element strictly exceeds every element. -/
theorem dateGt_all_of_head {x y : Post} {ys : List Post}
    (hl : (y :: ys).Pairwise postGe) (h : dateGt x.date y.date = true) :
    ∀ z ∈ y :: ys, dateGt x.date z.date = true := by
  intro z hz
  rcases List.mem_cons.mp hz with hz | hz
  · subst hz
    exact h
  · exact dateGt_of_dateGt_of_dateGe h ((List.pairwise_cons.mp hl).1 z hz)

/-- Stability of a single insertion: restricted to any one date value, the
insertion appends the new element after the existing ones (when the dates
match) and leaves the rest untouched. -/
theorem filter_sortInsertPost {l : List Post} (x : Post) (dv : YamlDate)
    (hl : l.Pairwise postGe) :
    (sortInsertPost l x).filter (fun p => decide (p.date = dv)) =
      if x.date = dv then
        l.filter (fun p => decide (p.date = dv)) ++ [x]
      else l.filter (fun p => decide (p.date = dv)) := by
  induction l with
  | nil =>
    by_cases hx : x.date = dv
    · simp [sortInsertPost, hx]
    · simp [sortInsertPost, hx]
  | cons y ys ih =>
    by_cases h : dateGt x.date y.date = true
    · rw [sortInsertPost, if_pos h]
      have hnil : x.date = dv → (y :: ys).filter (fun p => decide (p.date = dv)) = [] := by
        intro hx
        rw [List.filter_eq_nil_iff]
        intro z hz
        have hne := ne_of_dateGt (dateGt_all_of_head hl h z hz)
        simp only [decide_eq_true_eq]
        intro hzdv
        exact hne (hzdv.trans hx.symm).symm
      by_cases hx : x.date = dv
      · rw [if_pos hx, hnil hx, List.filter_cons, if_pos (by simpa using hx)]
        simp [hnil hx]
      · rw [if_neg hx, List.filter_cons, if_neg (by simpa using hx)]
    · rw [Bool.not_eq_true] at h
      rw [sortInsertPost, if_neg (by simp [h])]
      rw [List.filter_cons, ih (List.pairwise_cons.mp hl).2]
      by_cases hy : y.date = dv
      · rw [if_pos (by simpa using hy)]
        by_cases hx : x.date = dv
        · rw [if_pos hx, if_pos hx, List.filter_cons, if_pos (by simpa using hy)]
          simp
        · rw [if_neg hx, if_neg hx, List.filter_cons, if_pos (by simpa using hy)]
      · rw [if_neg (by simpa using hy)]
        by_cases hx : x.date = dv
        · rw [if_pos hx, if_pos hx, List.filter_cons, if_neg (by simpa using hy)]
        · rw [if_neg hx, if_neg hx, List.filter_cons, if_neg (by simpa using hy)]

/-- Stability of the fold underlying the sort. -/
theorem filter_foldl_sortInsertPost (dv : YamlDate) (l : List Post) :
    ∀ acc : List Post, acc.Pairwise postGe →
      (l.foldl sortInsertPost acc).filter (fun p => decide (p.date = dv)) =
        acc.filter (fun p => decide (p.date = dv)) ++
          l.filter (fun p => decide (p.date = dv)) := by
  induction l with
  | nil => intro acc hacc; simp
  | cons x xs ih =>
    intro acc hacc
    rw [List.foldl_cons, ih _ (pairwise_sortInsertPost x hacc),
      filter_sortInsertPost x dv hacc, List.filter_cons]
    by_cases hx : x.date = dv
    · rw [if_pos hx, if_pos (by simpa using hx)]
      simp
    · rw [if_neg hx, if_neg (by simpa using hx)]

/-- The sort of `getAllPosts` is stable: restricted to the posts of any one
date value, it is the identity. -/
theorem filter_jsSortPosts (l : List Post) (dv : YamlDate) :
    (jsSortPosts l).filter (fun p => decide (p.date = dv)) =
      l.filter (fun p => decide (p.date = dv)) := by
  have := filter_foldl_sortInsertPost dv l [] List.Pairwise.nil
  simpa [jsSortPosts] using this

/-! ### Lemmas about the fetch loop of `getAllPosts` -/

/-- If some filename's fetch fails, the loop fails, and it fails with the
error of one of the failing filenames. -/
theorem getAllPostsLoop_error (d : Dir) :
    ∀ (fns : List String) (fn : String) (e : JsError), fn ∈ fns →
      getPostFromFilename d fn = .error e →
      ∃ e₂, getAllPostsLoop d fns = .error e₂ ∧
        ∃ fn₂ ∈ fns, getPostFromFilename d fn₂ = .error e₂ := by
  intro fns
  induction fns with
  | nil => intro fn e hmem; exact absurd hmem (List.not_mem_nil fn)
  | cons g gs ih =>
    intro fn e hmem herr
    cases hg : getPostFromFilename d g with
    | error eg =>
      refine ⟨eg, ?_, g, List.mem_cons_self g gs, hg⟩
      rw [getAllPostsLoop, hg]
    | ok p =>
      rcases List.mem_cons.mp hmem with hfn | hfn
      · subst hfn
        rw [hg] at herr
        exact absurd herr (by simp)
      · rcases ih fn e hfn herr with ⟨e₂, hloop, fn₂, hmem₂, herr₂⟩
        refine ⟨e₂, ?_, fn₂, List.mem_cons_of_mem g hmem₂, herr₂⟩
        rw [getAllPostsLoop, hg, hloop]

/-- The loop returns one post per filename. -/
theorem getAllPostsLoop_length (d : Dir) :
    ∀ (fns : List String) (ps : List Post),
      getAllPostsLoop d fns = .ok ps → ps.length = fns.length := by
  intro fns
  induction fns with
  | nil =>
    intro ps h
    rw [getAllPostsLoop] at h
    cases h
    rfl
  | cons g gs ih =>
    intro ps h
    rw [getAllPostsLoop] at h
    cases hg : getPostFromFilename d g with
    | error eg => rw [hg] at h; cases h
    | ok p =>
      rw [hg] at h
      cases hloop : getAllPostsLoop d gs with
      | error e => rw [hloop] at h; cases h
      | ok ps₀ =>
        rw [hloop] at h
        cases h
        simp [ih ps₀ hloop]

/-- Inserting adds one element to the length. -/
theorem length_sortInsertPost (x : Post) :
    ∀ l : List Post, (sortInsertPost l x).length = l.length + 1 := by
  intro l
  induction l with
  | nil => rfl
  | cons y ys ih =>
    rw [sortInsertPost]
    by_cases h : dateGt x.date y.date = true
    · rw [if_pos h]
      rfl
    · rw [Bool.not_eq_true] at h
      rw [if_neg (by simp [h])]
      simp [ih]

/-- The sort preserves the number of posts. -/
theorem length_jsSortPosts (l : List Post) :
    (jsSortPosts l).length = l.length := by
  have haux : ∀ (m : List Post) (acc : List Post),
      (m.foldl sortInsertPost acc).length = acc.length + m.length := by
    intro m
    induction m with
    | nil => intro acc; simp
    | cons x xs ih =>
      intro acc
      rw [List.foldl_cons, ih, length_sortInsertPost, List.length_cons]
      omega
  have := haux l []
  simpa [jsSortPosts] using this

/-! ### Lemmas about the slug/filename round trip -/

/-- Appending the extension and taking the slug gives the slug back. -/
theorem getSlugFromFilename_append_md (s : String) :
    getSlugFromFilename (s ++ ".md") = s := by
  have hdata : (s ++ ".md").data = s.data ++ ['.', 'm', 'd'] := by
    rw [String.data_append]
  have hsuf : List.isSuffixOf ['.', 'm', 'd'] (s ++ ".md").data = true := by
    rw [hdata]
    simp [List.isSuffixOf_iff_suffix]
  rw [getSlugFromFilename, if_pos hsuf, hdata]
  rw [List.take_left' (by simp)]

/-- A filename with the `.md` extension survives the
filename → slug → filename round trip. -/
theorem filename_roundtrip_of_md {f : String}
    (h : List.isSuffixOf ['.', 'm', 'd'] f.data = true) :
    getFilenameFromSlug (getSlugFromFilename f) = f := by
  rw [List.isSuffixOf_iff_suffix] at h
  rcases h with ⟨t, ht⟩
  have hf : f = String.mk t ++ ".md" := by
    apply String.ext
    rw [String.data_append, ← ht]
  rw [hf, getSlugFromFilename_append_md]
  rfl

/-- A filename without the `.md` extension is its own slug. -/
theorem getSlugFromFilename_of_not_md {f : String}
    (h : List.isSuffixOf ['.', 'm', 'd'] f.data = false) :
    getSlugFromFilename f = f := by
  rw [getSlugFromFilename, if_neg (by simp [h])]

/-! ### Concrete fixtures for witnesses and counterexamples -/

/-- Directory with two posts, `a.md` dated 2024-01-02 and `b.md` dated
2024-01-01, in that enumeration order. -/
def c1Dir : Dir :=
  [("a.md", "---\ntitle: A\ndate: 2024-01-02\n---\nalpha"),
   ("b.md", "---\ntitle: B\ndate: 2024-01-01\n---\nbeta")]

/-- The post record `getPostFromSlug` builds for `a.md` of `c1Dir`. -/
def c1PostA : Post :=
  { title := some "A"
    date := ⟨2024, 1, 2⟩
    slug := "a"
    friendlyDate := "2024-01-02"
    content := "\nalpha"
    contentHtml := "<p>\nalpha</p>\n" }

/-- The post record `getPostFromSlug` builds for `b.md` of `c1Dir`. -/
def c1PostB : Post :=
  { title := some "B"
    date := ⟨2024, 1, 1⟩
    slug := "b"
    friendlyDate := "2024-01-01"
    content := "\nbeta"
    contentHtml := "<p>\nbeta</p>\n" }

/-- Directory with two posts sharing the date 2024-05-05, `x.md` enumerated
before `y.md`. -/
def c2Dir : Dir :=
  [("x.md", "---\ntitle: X\ndate: 2024-05-05\n---\nxx"),
   ("y.md", "---\ntitle: Y\ndate: 2024-05-05\n---\nyy")]

/-- The post record for `x.md` of `c2Dir`. -/
def c2PostX : Post :=
  { title := some "X"
    date := ⟨2024, 5, 5⟩
    slug := "x"
    friendlyDate := "2024-05-05"
    content := "\nxx"
    contentHtml := "<p>\nxx</p>\n" }

/-- The post record for `y.md` of `c2Dir`. -/
def c2PostY : Post :=
  { title := some "Y"
    date := ⟨2024, 5, 5⟩
    slug := "y"
    friendlyDate := "2024-05-05"
    content := "\nyy"
    contentHtml := "<p>\nyy</p>\n" }

/-! ### Claims -/

/-- C1: for every directory of post files, `getAllPosts` returns the posts
sorted by date in descending order — for every adjacent pair `(p1, p2)` of
the output, `p1.date >= p2.date` — and on the concrete directory with
`a.md` dated 2024-01-02 and `b.md` dated 2024-01-01 it returns `[a, b]`. -/
theorem C1_getAllPosts_sorted_desc :
    (∀ (d : Dir) (out : List Post), getAllPosts d = .ok out →
      List.Chain' (fun p1 p2 => dateGe p1.date p2.date = true) out) ∧
    getAllPosts c1Dir = .ok [c1PostA, c1PostB] := by
  constructor
  · intro d out h
    rw [getAllPosts] at h
    cases hloop : getAllPostsLoop d (readdirSync d) with
    | error e => rw [hloop] at h; cases h
    | ok posts =>
      rw [hloop] at h
      cases h
      exact (pairwise_jsSortPosts posts).chain'
  · rfl

/-- Witness for C1 on the two-file directory. -/
theorem C1_witness :
    List.Chain' (fun p1 p2 => dateGe p1.date p2.date = true) [c1PostA, c1PostB] :=
  C1_getAllPosts_sorted_desc.1 c1Dir [c1PostA, c1PostB] (by rfl)

/-- C2: `getAllPosts` breaks ties between equal dates stably: restricted to
the posts of any one date value, the sorted output lists them in the same
relative order as the directory enumeration produced them. -/
theorem C2_getAllPosts_stable_ties :
    ∀ (d : Dir) (posts : List Post) (dv : YamlDate),
      getAllPostsLoop d (readdirSync d) = .ok posts →
      getAllPosts d = .ok (jsSortPosts posts) ∧
      (jsSortPosts posts).filter (fun p => decide (p.date = dv)) =
        posts.filter (fun p => decide (p.date = dv)) := by
  intro d posts dv hloop
  constructor
  · rw [getAllPosts, hloop]
  · exact filter_jsSortPosts posts dv

/-- Witness for C2 on a directory with two posts of equal date. -/
theorem C2_witness :
    getAllPosts c2Dir = .ok (jsSortPosts [c2PostX, c2PostY]) ∧
    (jsSortPosts [c2PostX, c2PostY]).filter
        (fun p => decide (p.date = ⟨2024, 5, 5⟩)) =
      [c2PostX, c2PostY].filter (fun p => decide (p.date = ⟨2024, 5, 5⟩)) :=
  C2_getAllPosts_stable_ties c2Dir [c2PostX, c2PostY] ⟨2024, 5, 5⟩ (by rfl)

/-- C3 counterexample: the filename `notes.txt` does not survive the
filename → slug → filename round trip, because the slug transform strips
nothing and the inverse appends `.md`. -/
theorem C3_counterexample :
    getFilenameFromSlug (getSlugFromFilename "notes.txt") ≠ "notes.txt" := by
  decide

/-- C3 (amended): the round trip holds in both directions for the names the
mapping is meant for — every filename carrying the `.md` extension maps to
a slug that maps back to it, and every slug maps to a filename that maps
back to it; a filename without the `.md` extension is the one exception to
the filename-side round trip. -/
theorem C3_roundtrip_amended :
    (∀ f : String, List.isSuffixOf ['.', 'm', 'd'] f.data = true →
      getFilenameFromSlug (getSlugFromFilename f) = f) ∧
    (∀ s : String, getSlugFromFilename (getFilenameFromSlug s) = s) := by
  constructor
  · intro f h
    exact filename_roundtrip_of_md h
  · intro s
    exact getSlugFromFilename_append_md s

/-- Witness for C3 on `a.md` and on the slug `notes.txt`. -/
theorem C3_witness :
    getFilenameFromSlug (getSlugFromFilename "a.md") = "a.md" ∧
    getSlugFromFilename (getFilenameFromSlug "notes.txt") = "notes.txt" :=
  ⟨C3_roundtrip_amended.1 "a.md" (by decide),
   C3_roundtrip_amended.2 "notes.txt"⟩

/-- C5: a slug with no backing file in the content directory fails with the
file-not-found (`ENOENT`) error of the read, not with a post record. -/
theorem C5_missing_file :
    ∀ (d : Dir) (s : String),
      readFileSync d (getFilepathFromSlug s) = none →
      getPostFromSlug d s = .error (.fileNotFound (getFilepathFromSlug s)) := by
  intro d s h
  rw [getPostFromSlug, h]

/-- Witness for C5: `getPost("missing-slug")` on an empty content
directory fails with `FileNotFound`. -/
theorem C5_witness :
    getPostFromSlug ([] : Dir) "missing-slug" =
      .error (.fileNotFound "_posts/missing-slug.md") :=
  C5_missing_file ([] : Dir) "missing-slug" (by rfl)

/-- C8: markdown rendering is deterministic and independent of ambient
state: invoked in any two worlds on the same markdown source, the
markdown-to-HTML transform yields identical HTML text, and it leaves the
world untouched. -/
theorem C8_markdown_deterministic :
    ∀ (w₁ w₂ : World) (markdown : String),
      (markdownToHtmlInWorld w₁ markdown).1 = (markdownToHtmlInWorld w₂ markdown).1 ∧
      (markdownToHtmlInWorld w₁ markdown).2 = w₁ := by
  intro w₁ w₂ markdown
  exact ⟨rfl, rfl⟩

/-- Directory whose single file has a date but no title line. -/
def c4NoTitleDir : Dir :=
  [("no-title.md", "---\ndate: 2024-01-01\n---\nbody")]

/-- The record `getPostFromSlug` builds for the title-less file: its
`title` field is absent (`undefined`), yet the call succeeds. -/
def c4NoTitlePost : Post :=
  { title := none
    date := ⟨2024, 1, 1⟩
    slug := "no-title"
    friendlyDate := "2024-01-01"
    content := "\nbody"
    contentHtml := "<p>\nbody</p>\n" }

/-- Directory whose single file has a title but no date line. -/
def c4NoDateDir : Dir :=
  [("no-date.md", "---\ntitle: T\n---\nbody")]

/-- C4 counterexample: a metadata block lacking the required `title` does
not make `getPost` fail — it returns a record whose title is absent. -/
theorem C4_counterexample :
    getPostFromSlug c4NoTitleDir "no-title" = .ok c4NoTitlePost ∧
    c4NoTitlePost.title = none :=
  ⟨by rfl, rfl⟩

/-- C4 (amended): `getPost` fails (with the `TypeError` thrown by the
friendly-date computation, not a dedicated parse error) exactly when the
metadata block lacks a usable `date`; a missing `title` causes no failure
and is propagated into the record as an absent field. -/
theorem C4_missing_fields_amended :
    ∀ (d : Dir) (s raw : String),
      readFileSync d (getFilepathFromSlug s) = some raw →
      ((getPostFromSlug d s =
          .error (.typeError "date.toISOString is not a function")) ↔
        (matter raw).1.date = none) ∧
      (∀ p : Post, getPostFromSlug d s = .ok p → p.title = (matter raw).1.title) := by
  intro d s raw hread
  constructor
  · cases hdate : (matter raw).1.date with
    | none => simp [getPostFromSlug, hread, hdate]
    | some dt => simp [getPostFromSlug, hread, hdate]
  · intro p hp
    simp only [getPostFromSlug, hread] at hp
    cases hdate : (matter raw).1.date with
    | none => rw [hdate] at hp; simp at hp
    | some dt =>
      rw [hdate] at hp
      simp only [Except.ok.injEq] at hp
      subst hp
      rfl

/-- Witness for C4 on a file whose metadata block has no date. -/
theorem C4_witness :
    getPostFromSlug c4NoDateDir "no-date" =
      .error (.typeError "date.toISOString is not a function") :=
  (C4_missing_fields_amended c4NoDateDir "no-date" "---\ntitle: T\n---\nbody"
    (by rfl)).1.mpr (by rfl)

/-- Directory whose first file has no metadata block at all (so its fetch
fails) and whose second file is a well-formed post. -/
def c6Dir : Dir :=
  [("bad.md", "no front matter here"),
   ("good.md", "---\ntitle: G\ndate: 2024-02-02\n---\ngg")]

/-- C6: if fetching any single post inside `getAllPosts` fails, the whole
call fails — no partial list of already-fetched posts is returned — and
the error it fails with is the error of one of the failing fetches. -/
theorem C6_error_propagation :
    ∀ (d : Dir) (fn : String) (e : JsError),
      fn ∈ readdirSync d →
      getPostFromFilename d fn = .error e →
      (getAllPosts d).isOk = false ∧
      ∃ e₂, getAllPosts d = .error e₂ ∧
        ∃ fn₂ ∈ readdirSync d, getPostFromFilename d fn₂ = .error e₂ := by
  intro d fn e hmem herr
  rcases getAllPostsLoop_error d (readdirSync d) fn e hmem herr with
    ⟨e₂, hloop, hex⟩
  have hall : getAllPosts d = .error e₂ := by
    rw [getAllPosts, hloop]
  exact ⟨by rw [hall]; rfl, e₂, hall, hex⟩

/-- Witness for C6: a directory with one malformed file makes the whole
`getAllPosts` call fail. -/
theorem C6_witness : (getAllPosts c6Dir).isOk = false :=
  (C6_error_propagation c6Dir "bad.md"
    (.typeError "date.toISOString is not a function") (by decide) (by rfl)).1

/-- Directory with one post dated 2024-08-11, the spec's example date. -/
def c7Dir : Dir :=
  [("post.md", "---\ntitle: P\ndate: 2024-08-11\n---\np")]

/-- The record `getPostFromSlug` builds for the post of `c7Dir`. -/
def c7Post : Post :=
  { title := some "P"
    date := ⟨2024, 8, 11⟩
    slug := "post"
    friendlyDate := "2024-08-11"
    content := "\np"
    contentHtml := "<p>\np</p>\n" }

/-- C7: `friendlyDate` is a pure deterministic function of `date` alone —
every successfully fetched post carries `friendlyDate = getFriendlyDate date`,
the date 2024-08-11 renders as the string `"2024-08-11"`, and two posts
with equal dates have equal friendly-date strings. -/
theorem C7_friendlyDate_pure :
    (∀ (d : Dir) (s : String) (p : Post), getPostFromSlug d s = .ok p →
      p.friendlyDate = getFriendlyDate p.date) ∧
    getFriendlyDate ⟨2024, 8, 11⟩ = "2024-08-11" ∧
    (∀ (d₁ d₂ : Dir) (s₁ s₂ : String) (p₁ p₂ : Post),
      getPostFromSlug d₁ s₁ = .ok p₁ → getPostFromSlug d₂ s₂ = .ok p₂ →
      p₁.date = p₂.date → p₁.friendlyDate = p₂.friendlyDate) := by
  have hmain : ∀ (d : Dir) (s : String) (p : Post),
      getPostFromSlug d s = .ok p →
      p.friendlyDate = getFriendlyDate p.date := by
    intro d s p hp
    cases hr : readFileSync d (getFilepathFromSlug s) with
    | none => simp [getPostFromSlug, hr] at hp
    | some raw =>
      simp only [getPostFromSlug, hr] at hp
      cases hdate : (matter raw).1.date with
      | none => rw [hdate] at hp; simp at hp
      | some dt =>
        rw [hdate] at hp
        simp only [Except.ok.injEq] at hp
        subst hp
        rfl
  refine ⟨hmain, by decide, ?_⟩
  intro d₁ d₂ s₁ s₂ p₁ p₂ h₁ h₂ hdate
  rw [hmain d₁ s₁ p₁ h₁, hmain d₂ s₂ p₂ h₂, hdate]

/-- Witness for C7 on a post dated 2024-08-11. -/
theorem C7_witness :
    c7Post.friendlyDate = getFriendlyDate c7Post.date ∧
    getFriendlyDate ⟨2024, 8, 11⟩ = "2024-08-11" :=
  ⟨C7_friendlyDate_pure.1 c7Dir "post" c7Post (by rfl),
   C7_friendlyDate_pure.2.1⟩

/-- Directory mixing a markdown post with a non-markdown file. -/
def c9MixDir : Dir :=
  [("one.md", "---\ntitle: One\ndate: 2024-03-02\n---\none body"),
   ("notes.txt", "irrelevant")]

/-- Directory with a single well-formed markdown post. -/
def c9MdDir : Dir :=
  [("p1.md", "---\ntitle: P1\ndate: 2024-04-04\n---\nb1")]

/-- The record `getPostFromSlug` builds for the post of `c9MdDir`. -/
def c9Post1 : Post :=
  { title := some "P1"
    date := ⟨2024, 4, 4⟩
    slug := "p1"
    friendlyDate := "2024-04-04"
    content := "\nb1"
    contentHtml := "<p>\nb1</p>\n" }

/-- C9: slug enumeration does not filter by file type — `getAllSlugs` maps
every directory entry to exactly one slug, the entry with a single
trailing `.md` removed when that extension is present and the entry itself
otherwise; and `getAllPosts` processes every enumerated entry as a post
(one output post per directory entry when all fetches succeed). -/
theorem C9_slug_enumeration :
    ∀ d : Dir,
      getAllSlugs d = (readdirSync d).map getSlugFromFilename ∧
      (∀ f : String,
        (List.isSuffixOf ['.', 'm', 'd'] f.data = true →
          getSlugFromFilename f ++ ".md" = f) ∧
        (List.isSuffixOf ['.', 'm', 'd'] f.data = false →
          getSlugFromFilename f = f)) ∧
      (∀ out : List Post, getAllPosts d = .ok out →
        out.length = (readdirSync d).length) := by
  intro d
  refine ⟨rfl, ?_, ?_⟩
  · intro f
    constructor
    · intro h
      exact filename_roundtrip_of_md h
    · intro h
      exact getSlugFromFilename_of_not_md h
  · intro out hout
    rw [getAllPosts] at hout
    cases hloop : getAllPostsLoop d (readdirSync d) with
    | error e => rw [hloop] at hout; cases hout
    | ok posts =>
      rw [hloop] at hout
      cases hout
      rw [length_jsSortPosts]
      exact getAllPostsLoop_length d (readdirSync d) posts hloop

/-- Witness for C9 on a directory mixing `.md` and non-`.md` entries. -/
theorem C9_witness :
    getAllSlugs c9MixDir = ["one", "notes.txt"] ∧
    getSlugFromFilename "one.md" ++ ".md" = "one.md" ∧
    getSlugFromFilename "notes.txt" = "notes.txt" ∧
    [c9Post1].length = (readdirSync c9MdDir).length :=
  ⟨(C9_slug_enumeration c9MixDir).1.trans (by rfl),
   ((C9_slug_enumeration c9MixDir).2.1 "one.md").1 (by decide),
   ((C9_slug_enumeration c9MixDir).2.1 "notes.txt").2 (by decide),
   (C9_slug_enumeration c9MdDir).2.2 [c9Post1] (by rfl)⟩

/-- Directory with one post used for the C10 witness. -/
def c10Dir : Dir :=
  [("hello.md", "---\ntitle: H\ndate: 2023-03-03\n---\nworld")]

/-- The record `getPostFromSlug` builds for the post of `c10Dir`. -/
def c10Post : Post :=
  { title := some "H"
    date := ⟨2023, 3, 3⟩
    slug := "hello"
    friendlyDate := "2023-03-03"
    content := "\nworld"
    contentHtml := "<p>\nworld</p>\n" }

/-- C10: the lookup key is preserved — whenever `getPost` succeeds for a
slug, the returned record's `slug` field is that slug, its `content` is
the file body with the metadata block removed (the body component of
`matter`), and its `contentHtml` is the markdown-to-HTML transform of that
content. -/
theorem C10_lookup_key_preserved :
    ∀ (d : Dir) (s raw : String) (p : Post),
      readFileSync d (getFilepathFromSlug s) = some raw →
      getPostFromSlug d s = .ok p →
      p.slug = s ∧ p.content = (matter raw).2 ∧
      p.contentHtml = markdownToHtml p.content := by
  intro d s raw p hread hp
  simp only [getPostFromSlug, hread] at hp
  cases hdate : (matter raw).1.date with
  | none => rw [hdate] at hp; simp at hp
  | some dt =>
    rw [hdate] at hp
    simp only [Except.ok.injEq] at hp
    subst hp
    exact ⟨rfl, rfl, rfl⟩

/-- Witness for C10 on the single-post directory. -/
theorem C10_witness :
    c10Post.slug = "hello" ∧
    c10Post.content = (matter "---\ntitle: H\ndate: 2023-03-03\n---\nworld").2 ∧
    c10Post.contentHtml = markdownToHtml c10Post.content :=
  C10_lookup_key_preserved c10Dir "hello"
    "---\ntitle: H\ndate: 2023-03-03\n---\nworld" c10Post (by rfl) (by rfl)
